import Mathlib

set_option maxRecDepth 8192

/-!
Shallow embedding of the `hybrid_collector` fetch-extract-normalize pipeline
(`api_client.py`, `scraper.py`, `normalizer.py`, and the data model of
`config.py`), together with theorems settling the specification claims.

Strings are embedded as `List Char`.  Python `None` (which the `json` module
also uses for JSON `null`) is the `Value.none` constructor.  Fallible code
returns `Except`: the error side is an uncaught Python exception escaping the
embedded function.  Python floats are the `PyFloat` type: finite values as
exact decimal mantissa/exponent pairs, with `inf` and `nan` modelled exactly;
the claims under study only exercise decimal literals and the special values,
so IEEE-754 binary rounding is not relied on.
-/

/-- A Python exception class relevant to the pipeline beyond the library's
own error types: `ValueError` (raised e.g. by `int()` on a digit-like string
with no decimal value) and `OverflowError` (raised by `int()` of an infinite
float and by `float()` of an integer beyond double range).  Neither is caught
by the pipeline code. -/
inductive PyExc : Type
  | valueError
  | overflowError

/-- A Python float.  Finite values are modelled as exact decimals
`mant * 10 ^ exp` — IEEE-754 binary rounding (including subnormal underflow
to zero) is deliberately not modelled, matching the decimal level of
abstraction of the spec's own examples — while the special values `inf`
(with its sign) and `nan` are modelled exactly, since the pipeline's error
behaviour depends on them. -/
inductive PyFloat : Type
  | finite (mant exp : Int)
  | inf (neg : Bool)
  | nan

/-- A Python value as it flows through the pipeline: `none` is Python `None`
(and JSON `null`). -/
inductive Value : Type
  | none
  | bool (b : Bool)
  | int (n : Int)
  | float (x : PyFloat)
  | str (s : List Char)
  | list (xs : List Value)
  | dict (kvs : List (List Char × Value))

/-- Python `s.split(".")`: the chunks (possibly empty) between the dots;
`"".split(".") == [""]`. -/
def splitDot : List Char → List (List Char)
  | [] => [[]]
  | c :: rest =>
    match splitDot rest with
    | [] => [[c]]
    | s :: ss => if c = '.' then [] :: s :: ss else (c :: s) :: ss

/-- Python `".".join(parts)`. -/
def joinDot : List (List Char) → List Char
  | [] => []
  | [s] => s
  | s :: rest => s ++ '.' :: joinDot rest

/-- ASCII decimal digit test (the digit characters whose decimal value
Python's `int()` uses; Python also accepts the other Unicode Nd decimal
digits, outside the modelled character set). -/
def isAsciiDigit (c : Char) : Bool := '0' ≤ c && c ≤ '9'

/-- Digit-like characters for which Python's `str.isdigit()` is true but
`int()` raises `ValueError`: modelled as the superscript digits (Python
accepts further No-category digit characters, outside the modelled set). -/
def isSuperscriptDigit (c : Char) : Bool :=
  c = '⁰' || c = '¹' || c = '²' || c = '³' || c = '⁴' || c = '⁵' || c = '⁶' || c = '⁷'
    || c = '⁸' || c = '⁹'

/-- Python `part.isdigit()` over the modelled character set: non-empty and
every character a decimal or superscript digit. -/
def pyIsDigit (s : List Char) : Bool :=
  !s.isEmpty && s.all fun c => isAsciiDigit c || isSuperscriptDigit c

/-- Numeric value of a decimal digit string (base 10). -/
def digitsToNat (s : List Char) : Nat :=
  s.foldl (fun acc c => 10 * acc + (c.toNat - '0'.toNat)) 0

/-- Python `int(part)` for a string that passed `isdigit()`: the base-10
value when every character is a decimal digit, `ValueError` (modelled as
`Option.none`) when a merely digit-like character such as `²` is present. -/
def pyIntOfDigits (s : List Char) : Option Nat :=
  if s.all isAsciiDigit then some (digitsToNat s) else Option.none

/-- Python `d.get(k)` on a dict (first matching key wins; `None` when the key
is missing). -/
def pyDictGet (kvs : List (List Char × Value)) (k : List Char) : Value :=
  match kvs.find? (fun kv => kv.1 == k) with
  | some kv => kv.2
  | Option.none => Value.none

/-- One iteration of the loop body of `extract_json_value` in `api_client.py`:
resolve one path segment against the current node.  A dict resolves by key
lookup; a list first requires `part.isdigit()`, then evaluates `int(part)` —
which raises `ValueError` for digit-like non-decimal segments — and indexes
when in bounds; every other combination is Python `None`. -/
def extractStep (cur : Value) (part : List Char) : Except PyExc Value :=
  match cur with
  | Value.dict kvs => Except.ok (pyDictGet kvs part)
  | Value.list xs =>
    if pyIsDigit part then
      match pyIntOfDigits part with
      | some idx =>
        Except.ok (if h : idx < xs.length then xs.get ⟨idx, h⟩ else Value.none)
      | Option.none => Except.error PyExc.valueError
    else Except.ok Value.none
  | _ => Except.ok Value.none

/-- The loop of `extract_json_value`: an exception propagates; on a `None`
intermediate the Python code returns `None` immediately
(`if current is None: return None`). -/
def extractGo : Value → List (List Char) → Except PyExc Value
  | cur, [] => Except.ok cur
  | cur, p :: ps =>
    match extractStep cur p with
    | Except.error e => Except.error e
    | Except.ok Value.none => Except.ok Value.none
    | Except.ok v => extractGo v ps

/-- `extract_json_value(data, path)` from `api_client.py`; the error side is
an uncaught Python exception. -/
def extract_json_value (data : Value) (path : List Char) : Except PyExc Value :=
  extractGo data (splitDot path)

/-- Python whitespace stripped by `str.strip()` / numeric constructors
(ASCII; Python also strips Unicode whitespace, outside the modelled set). -/
def isPySpace (c : Char) : Bool :=
  c = ' ' || c = '\t' || c = '\n' || c = '\r' || c = '\x0b' || c = '\x0c'

/-- Python `s.strip()`. -/
def pyStrip (s : List Char) : List Char :=
  ((s.dropWhile isPySpace).reverse.dropWhile isPySpace).reverse

/-- Python `s.lower()` (ASCII suffices for the inputs concerned). -/
def pyLower (s : List Char) : List Char := s.map Char.toLower

/-- Consume an optional leading sign, returning the sign as `1`/`-1`. -/
def parseSignedTail : List Char → Int × List Char
  | '+' :: rest => (1, rest)
  | '-' :: rest => (-1, rest)
  | s => (1, s)

/-- Scan a PEP-515 digit run: a leading ASCII digit, then digits with single
underscores allowed only between digits.  Returns the digits (underscores
removed) and the unconsumed rest. -/
def digitRunAux : List Char → List Char × List Char
  | [] => ([], [])
  | c :: rest =>
    if isAsciiDigit c then
      match rest with
      | '_' :: c2 :: rest2 =>
        if isAsciiDigit c2 then
          let p := digitRunAux (c2 :: rest2)
          (c :: p.1, p.2)
        else (c :: [], '_' :: c2 :: rest2)
      | r2 =>
        let p := digitRunAux r2
        (c :: p.1, p.2)
    else ([], c :: rest)

/-- Optional exponent suffix of a float literal: empty means exponent `0`;
`e`/`E`, an optional sign, and a digit run consuming the whole rest means
that exponent. -/
def parseExpTail : List Char → Option Int
  | [] => some 0
  | c :: rest =>
    if c = 'e' ∨ c = 'E' then
      let p := parseSignedTail rest
      let q := digitRunAux p.2
      if q.1 ≠ [] ∧ q.2 = [] then some (p.1 * (digitsToNat q.1 : Int)) else Option.none
    else Option.none

/-- Magnitude test `|mant| * 10 ^ exp ≥ 2 ^ 1024`: beyond the IEEE double
range, where Python's `float` overflows (the sub-ulp region at the exact
rounding boundary is not modelled more finely). -/
def decimalOverflow (mant exp : Int) : Bool :=
  if 0 ≤ exp then (2 : Nat) ^ 1024 ≤ mant.natAbs * 10 ^ exp.toNat
  else (2 : Nat) ^ 1024 * 10 ^ (-exp).toNat ≤ mant.natAbs

/-- A finite decimal result of `float(str)`, spilling to `inf` beyond the
double range (`float('1e999')` is `inf`, not an error). -/
def mkFloatLit (mant exp : Int) : PyFloat :=
  if decimalOverflow mant exp then PyFloat.inf (mant < 0) else PyFloat.finite mant exp

/-- Model of Python `float(str)` on ASCII literals: optional whitespace and
sign, then `inf`/`infinity`/`nan` (case-insensitive) or a decimal literal
with optional fraction and exponent, underscores allowed between digits
(PEP 515).  Python additionally accepts non-ASCII Unicode decimal digits and
whitespace, outside the modelled character set. -/
def parseFloatStr (s0 : List Char) : Option PyFloat :=
  let s := pyStrip s0
  let p := parseSignedTail s
  let low := pyLower p.2
  if low = "inf".data ∨ low = "infinity".data then some (PyFloat.inf (p.1 < 0))
  else if low = "nan".data then some PyFloat.nan
  else
    let q := digitRunAux p.2
    match q.2 with
    | [] => if q.1 = [] then Option.none else some (mkFloatLit (p.1 * (digitsToNat q.1 : Int)) 0)
    | '.' :: r2 =>
      let q2 := digitRunAux r2
      if q.1 = [] ∧ q2.1 = [] then Option.none
      else
        match parseExpTail q2.2 with
        | some e =>
          some (mkFloatLit (p.1 * (digitsToNat (q.1 ++ q2.1) : Int)) (e - q2.1.length))
        | Option.none => Option.none
    | _ =>
      match parseExpTail q.2 with
      | some e =>
        if q.1 = [] then Option.none
        else some (mkFloatLit (p.1 * (digitsToNat q.1 : Int)) e)
      | Option.none => Option.none

/-- Model of Python `int(str)` on ASCII literals: optional whitespace, sign,
and a digit run with underscores allowed between digits (PEP 515), consuming
the whole string.  Python additionally accepts non-ASCII Unicode decimal
digits and whitespace, outside the modelled character set. -/
def parseIntStr (s0 : List Char) : Option Int :=
  let s := pyStrip s0
  let p := parseSignedTail s
  let q := digitRunAux p.2
  if q.1 ≠ [] ∧ q.2 = [] then some (p.1 * (digitsToNat q.1 : Int)) else Option.none

/-- Truncation toward zero of the decimal `mant * 10 ^ exp`, as Python
`int(float)` does on finite floats (`Int.tdiv` is T-division). -/
def truncDecimal (mant exp : Int) : Int :=
  if 0 ≤ exp then mant * (10 : Int) ^ exp.toNat
  else Int.tdiv mant ((10 : Int) ^ (-exp).toNat)

/-- Outcome of a conversion call inside `_convert_value`: a value, an
exception caught by the `except (TypeError, ValueError)` clause, or an
uncaught exception escaping it. -/
inductive ConvOutcome : Type
  | ok (v : Value)
  | caught
  | uncaught (e : PyExc)

/-- Model of Python `float(value)`: `OverflowError` (uncaught) on an integer
beyond double range; `TypeError`/`ValueError` (caught) on inconvertible
values and strings. -/
def pyFloatConv : Value → ConvOutcome
  | Value.bool b => ConvOutcome.ok (Value.float (PyFloat.finite (if b then 1 else 0) 0))
  | Value.int n =>
    if decimalOverflow n 0 then ConvOutcome.uncaught PyExc.overflowError
    else ConvOutcome.ok (Value.float (PyFloat.finite n 0))
  | Value.float x => ConvOutcome.ok (Value.float x)
  | Value.str s =>
    match parseFloatStr s with
    | some x => ConvOutcome.ok (Value.float x)
    | Option.none => ConvOutcome.caught
  | _ => ConvOutcome.caught

/-- Model of Python `int(value)`: truncation toward zero on finite floats,
`OverflowError` (uncaught) on infinite floats, `ValueError` (caught) on
`nan` and unparsable strings, `TypeError` (caught) on other values. -/
def pyIntConv : Value → ConvOutcome
  | Value.bool b => ConvOutcome.ok (Value.int (if b then 1 else 0))
  | Value.int n => ConvOutcome.ok (Value.int n)
  | Value.float (PyFloat.finite m e) => ConvOutcome.ok (Value.int (truncDecimal m e))
  | Value.float (PyFloat.inf _) => ConvOutcome.uncaught PyExc.overflowError
  | Value.float PyFloat.nan => ConvOutcome.caught
  | Value.str s =>
    match parseIntStr s with
    | some n => ConvOutcome.ok (Value.int n)
    | Option.none => ConvOutcome.caught
  | _ => ConvOutcome.caught

/-- The `try`/`except (TypeError, ValueError)` wrapper inside
`_convert_value`: caught exceptions become `None`, uncaught ones propagate. -/
def convApply : ConvOutcome → Except PyExc Value
  | ConvOutcome.ok v => Except.ok v
  | ConvOutcome.caught => Except.ok Value.none
  | ConvOutcome.uncaught e => Except.error e

/-- `_convert_value(value, target_type)` from `normalizer.py`: `None` values
and absent target types pass through; `float`/`int` conversions apply with
`TypeError`/`ValueError` caught to `None` while `OverflowError` escapes; any
other declared type passes the value through. -/
def _convert_value (value : Value) (target_type : Option (List Char)) :
    Except PyExc Value :=
  match value, target_type with
  | Value.none, _ => Except.ok Value.none
  | _, Option.none => Except.ok value
  | _, some t =>
    if t = "float".data then convApply (pyFloatConv value)
    else if t = "int".data then convApply (pyIntConv value)
    else Except.ok value

/-- ASCII-only character content. -/
def asciiOnly (s : List Char) : Bool := s.all fun c => c.toNat < 128

/-- A pipeline value whose string content (if any) is ASCII: the character
set over which the string-conversion models are exact. -/
def valueAscii : Value → Bool
  | Value.str s => asciiOnly s
  | _ => true

/-- `ApiConfig` from `config.py`. -/
structure ApiConfig where
  enabled : Bool
  base_url : Option (List Char)
  method : List Char
  params : List (List Char × List Char)
  headers : List (List Char × List Char)
  json_key_map : Option (List (List Char × List Char))

/-- `HtmlConfig` from `config.py`. -/
structure HtmlConfig where
  enabled : Bool
  url : Option (List Char)
  selectors : Option (List (List Char × List Char))

/-- `MappingConfig` from `config.py`; Python dicts are embedded as ordered
association lists. -/
structure MappingConfig where
  unified_fields : List (List Char × List Char)
  field_types : Option (List (List Char × List Char))

/-- `SourceConfig` from `config.py`. -/
structure SourceConfig where
  id : List Char
  api : Option ApiConfig
  html : Option HtmlConfig
  mapping : MappingConfig

/-- Python `d.get(k)` on a string-valued dict. -/
def lookupStr (kvs : List (List Char × List Char)) (k : List Char) : Option (List Char) :=
  (kvs.find? (fun kv => kv.1 == k)).map (fun kv => kv.2)

/-- The per-field loop body of `normalize_record` in `normalizer.py`: split the
mapping expression on dots, require at least two parts, rejoin everything
after the first part as the key, look it up in the selected origin's value
map, and apply the declared type coercion (whose uncaught exception, if any,
propagates). -/
def resolveField (field_types : Option (List (List Char × List Char)))
    (unified_key mapping_expr : List Char)
    (api_values html_values : Option (List (List Char × Value))) : Except PyExc Value :=
  let parts := splitDot mapping_expr
  if parts.length < 2 then Except.ok Value.none
  else
    let source_type := parts.headD []
    let field_key := joinDot parts.tail
    let value :=
      if source_type = "api".data then
        match api_values with
        | some m => pyDictGet m field_key
        | Option.none => Value.none
      else if source_type = "html".data then
        match html_values with
        | some m => pyDictGet m field_key
        | Option.none => Value.none
      else Value.none
    _convert_value value (lookupStr (field_types.getD []) unified_key)

/-- The loop of `normalize_record`: one output entry per `unified_fields`
entry, in declaration order; the first uncaught conversion exception
propagates out of the function. -/
def normalize_record_go (field_types : Option (List (List Char × List Char)))
    (api_values html_values : Option (List (List Char × Value))) :
    List (List Char × List Char) → Except PyExc (List (List Char × Value))
  | [] => Except.ok []
  | kv :: rest =>
    match resolveField field_types kv.1 kv.2 api_values html_values with
    | Except.error e => Except.error e
    | Except.ok v =>
      match normalize_record_go field_types api_values html_values rest with
      | Except.error e => Except.error e
      | Except.ok tail => Except.ok ((kv.1, v) :: tail)

/-- `normalize_record(source, api_values, html_values)` from `normalizer.py`. -/
def normalize_record (source : SourceConfig)
    (api_values html_values : Option (List (List Char × Value))) :
    Except PyExc (List (List Char × Value)) :=
  normalize_record_go source.mapping.field_types api_values html_values
    source.mapping.unified_fields

/-- The attribute-directive marker `"::attr("` of `scraper.py`. -/
def attrMark : List Char := "::attr(".data

/-- Split a list at the first occurrence of `pat`, returning the part before
the occurrence and the part after it (Python `s.partition(pat)` with the
separator dropped), or `Option.none` when `pat` does not occur. -/
def findSplit (pat : List Char) : List Char → Option (List Char × List Char)
  | [] => if pat.isPrefixOf ([] : List Char) then some ([], []) else Option.none
  | c :: rest =>
    if pat.isPrefixOf (c :: rest) then some ([], (c :: rest).drop pat.length)
    else
      match findSplit pat rest with
      | some p => some (c :: p.1, p.2)
      | Option.none => Option.none

/-- Python `pat in s` on strings. -/
def containsSub (s pat : List Char) : Bool := (findSplit pat s).isSome

/-- `_split_selector(selector)` from `scraper.py`: when `"::attr(" in
selector` and the selector ends with a closing parenthesis, partition at the
first occurrence of the marker and drop the trailing parenthesis from the
remainder; otherwise return the selector whole with no attribute name. -/
def _split_selector (selector : List Char) : List Char × Option (List Char) :=
  match findSplit attrMark selector with
  | some p =>
    if selector.getLast? = some ')' then (p.1, some p.2.dropLast)
    else (selector, Option.none)
  | Option.none => (selector, Option.none)

/-- The outcome classes of `str.format(**context)` relevant here: `KeyError`
carrying the missing keyword name (the only class the fetch code catches);
`ValueError` on unbalanced braces; `IndexError` on positional or
auto-numbered fields (no positional arguments are ever passed); and a model
marker for a field whose keyword was found but which carries attribute/index
access, a conversion or a format spec — Python would evaluate those against
the found value, which this model does not compute, and no theorem relies on
that constructor. -/
inductive FormatError : Type
  | missingKey (k : List Char)
  | malformed
  | indexError
  | fieldAccessUnmodelled

/-- A character that continues the keyword name of a replacement field:
anything up to the first `.`/`[` (attribute or index access) or `!`/`:`
(conversion or format spec). -/
def isNameChar (c : Char) : Bool := c ≠ '.' && c ≠ '[' && c ≠ '!' && c ≠ ':'

/-- The keyword name of a replacement field: the text before the first
`.`/`[` (attribute or index access) or `!`/`:` (conversion or format spec).
A `KeyError` from `str.format` carries exactly this leading name. -/
def fieldArgName (field : List Char) : List Char :=
  field.takeWhile isNameChar

/-- Scanner state of the format-string parser: literal text, or inside a
replacement field with the raw field text read so far. -/
inductive FmtMode : Type
  | lit
  | field (acc : List Char)

/-- The scanner of Python `str.format(**context)`: literal text with
doubled-brace escapes; a replacement field is collected up to its closing
brace, its leading keyword name is parsed out, an empty or all-digits name is
positional/auto-numbered (`IndexError`, as no positional arguments exist), a
missing keyword raises `KeyError` carrying exactly that name, and a found
pure name substitutes its value.  Nested format specs are not modelled. -/
def pyFormatGo (ctx : List (List Char × List Char)) :
    FmtMode → List Char → Except FormatError (List Char)
  | FmtMode.lit, [] => Except.ok []
  | FmtMode.lit, '{' :: '{' :: rest => (pyFormatGo ctx FmtMode.lit rest).map fun t => '{' :: t
  | FmtMode.lit, '}' :: '}' :: rest => (pyFormatGo ctx FmtMode.lit rest).map fun t => '}' :: t
  | FmtMode.lit, '{' :: rest => pyFormatGo ctx (FmtMode.field []) rest
  | FmtMode.lit, '}' :: _ => Except.error FormatError.malformed
  | FmtMode.lit, c :: rest => (pyFormatGo ctx FmtMode.lit rest).map fun t => c :: t
  | FmtMode.field _, [] => Except.error FormatError.malformed
  | FmtMode.field acc, '}' :: rest =>
    let name := fieldArgName acc
    if name.isEmpty || name.all isAsciiDigit then Except.error FormatError.indexError
    else
      match lookupStr ctx name with
      | Option.none => Except.error (FormatError.missingKey name)
      | some v =>
        if name.length = acc.length then (pyFormatGo ctx FmtMode.lit rest).map fun t => v ++ t
        else Except.error FormatError.fieldAccessUnmodelled
  | FmtMode.field _, '{' :: _ => Except.error FormatError.malformed
  | FmtMode.field acc, c :: rest => pyFormatGo ctx (FmtMode.field (acc ++ [c])) rest

/-- Model of Python `template.format(**context)` (keyword fields). -/
def pyFormat (ctx : List (List Char × List Char)) (template : List Char) :
    Except FormatError (List Char) :=
  pyFormatGo ctx FmtMode.lit template

/-- Failure mode of the URL-resolution step: `ApiClient.fetch` and
`HtmlScraper.fetch_and_parse` catch only `KeyError` (wrapped into their error
type, carrying the offending key); every other formatting exception
propagates uncaught. -/
inductive UrlError : Type
  | missingContextKey (k : List Char) (url : List Char)
  | uncaughtFormatExc (e : FormatError)

/-- The URL-resolution step of `ApiClient.fetch` / `fetch_and_parse`:
`if context: url = url.format(**context)` with the `KeyError` wrapped into an
error carrying the offending key; an absent or empty (falsy) context skips
formatting entirely. -/
def resolveUrl (base : List Char) (context : Option (List (List Char × List Char))) :
    Except UrlError (List Char) :=
  match context with
  | Option.none => Except.ok base
  | some ctx =>
    if ctx.isEmpty then Except.ok base
    else
      match pyFormat ctx base with
      | Except.ok u => Except.ok u
      | Except.error (FormatError.missingKey k) =>
        Except.error (UrlError.missingContextKey k base)
      | Except.error e => Except.error (UrlError.uncaughtFormatExc e)

/-- Outcome of one HTTP request in `fetch_html`: a transport-level exception
or a response with status code, declared encoding, apparent encoding and
body text. -/
inductive HtmlAttempt : Type
  | netErr
  | resp (status : Nat) (encoding : Option (List Char)) (apparent : Option (List Char))
      (text : List Char)

/-- The `ScrapeError` variants `fetch_html` can raise, with the data embedded
in their messages (URL, status code). -/
inductive ScrapeErr : Type
  | requestFailed (url : List Char)
  | serverError (url : List Char) (status : Nat)
  | httpError (url : List Char) (status : Nat)
  | exhausted (url : List Char) (lastStatus : Option Nat)

/-- The single-byte Latin encoding labels distrusted by `fetch_html`. -/
def latinEncodings : List (List Char) :=
  ["iso-8859-1".data, "latin-1".data, "latin1".data]

/-- The encoding-normalization expression of `fetch_html`: lowercase the
server-declared encoding; when it is falsy or a Latin label, fall back to the
lowercased apparent encoding, defaulting to utf-8. -/
def normalizeEnc (encoding apparent : Option (List Char)) : List Char :=
  let enc := pyLower (encoding.getD [])
  if enc = [] ∨ enc ∈ latinEncodings then pyLower (apparent.getD "utf-8".data) else enc

/-- The retry loop of `fetch_html` in `scraper.py`, faithfully including the
missing `return` in the success branch: the normalized encoding is bound and
the loop simply continues with the next attempt.  `transport n` is the
outcome of the `n`-th HTTP request; the result is paired with the number of
requests performed. -/
def fetchHtmlGo (url : List Char) (transport : Nat → HtmlAttempt) (max_retries : Nat) :
    Nat → Nat → Option Nat → Except ScrapeErr (List Char) × Nat
  | 0, attempt, last => (Except.error (ScrapeErr.exhausted url last), attempt - 1)
  | fuel + 1, attempt, last =>
    match transport attempt with
    | HtmlAttempt.netErr =>
      if max_retries ≤ attempt then (Except.error (ScrapeErr.requestFailed url), attempt)
      else fetchHtmlGo url transport max_retries fuel (attempt + 1) last
    | HtmlAttempt.resp status encoding apparent _text =>
      if 500 ≤ status ∧ status < 600 then
        if max_retries ≤ attempt then
          (Except.error (ScrapeErr.serverError url status), attempt)
        else fetchHtmlGo url transport max_retries fuel (attempt + 1) (some status)
      else if 400 ≤ status ∧ status < 600 then
        (Except.error (ScrapeErr.httpError url status), attempt)
      else
        let _enc := normalizeEnc encoding apparent
        fetchHtmlGo url transport max_retries fuel (attempt + 1) (some status)

/-- `fetch_html(url, ..., max_retries)`: run the loop for at most
`max_retries` attempts starting at attempt 1 with no last status. -/
def fetch_html (url : List Char) (transport : Nat → HtmlAttempt) (max_retries : Nat) :
    Except ScrapeErr (List Char) × Nat :=
  fetchHtmlGo url transport max_retries max_retries 1 Option.none

/-- Outcome of one HTTP request in `ApiClient.fetch`: a transport-level
exception, or a response with status code and (when the body parses as JSON)
the decoded payload. -/
inductive ApiAttempt : Type
  | netErr
  | resp (status : Nat) (body : Option Value)

/-- The `ApiError` variants `ApiClient.fetch` can raise, with the `url` and
`status_code` attributes they carry; `uncaughtExc` is not an `ApiError` but a
Python exception raised by `extract_json_value` escaping `fetch` uncaught. -/
inductive ApiErr : Type
  | requestFailed (url : List Char)
  | serverError (url : List Char) (status : Nat)
  | httpError (url : List Char) (status : Nat)
  | notJson (url : List Char) (status : Nat)
  | exhausted (url : List Char) (lastStatus : Option Nat)
  | uncaughtExc (e : PyExc)

/-- The dict comprehension of `ApiClient.fetch`'s success branch: extract
every `json_key_map` path in order; an extraction exception propagates. -/
def extractAllJson (payload : Value) :
    List (List Char × List Char) → Except PyExc (List (List Char × Value))
  | [] => Except.ok []
  | kv :: rest =>
    match extract_json_value payload kv.2 with
    | Except.error e => Except.error e
    | Except.ok v =>
      match extractAllJson payload rest with
      | Except.error e => Except.error e
      | Except.ok tail => Except.ok ((kv.1, v) :: tail)

/-- The retry loop of `ApiClient.fetch` in `api_client.py`: network errors and
5xx statuses retry until the attempt budget is exhausted; `raise_for_status`
turns the remaining 4xx statuses into an immediate error; a 2xx (or other
non-error) response has its JSON decoded and the `json_key_map` paths
extracted.  The result is paired with the number of requests performed. -/
def apiFetchGo (url : List Char) (keyMap : List (List Char × List Char))
    (transport : Nat → ApiAttempt) (max_retries : Nat) :
    Nat → Nat → Option Nat → Except ApiErr (List (List Char × Value)) × Nat
  | 0, attempt, last => (Except.error (ApiErr.exhausted url last), attempt - 1)
  | fuel + 1, attempt, last =>
    match transport attempt with
    | ApiAttempt.netErr =>
      if max_retries ≤ attempt then (Except.error (ApiErr.requestFailed url), attempt)
      else apiFetchGo url keyMap transport max_retries fuel (attempt + 1) last
    | ApiAttempt.resp status body =>
      if 500 ≤ status ∧ status < 600 then
        if max_retries ≤ attempt then (Except.error (ApiErr.serverError url status), attempt)
        else apiFetchGo url keyMap transport max_retries fuel (attempt + 1) (some status)
      else if 400 ≤ status ∧ status < 600 then
        (Except.error (ApiErr.httpError url status), attempt)
      else
        match body with
        | Option.none => (Except.error (ApiErr.notJson url status), attempt)
        | some payload =>
          match extractAllJson payload keyMap with
          | Except.ok vals => (Except.ok vals, attempt)
          | Except.error e => (Except.error (ApiErr.uncaughtExc e), attempt)

/-- The retry loop of `ApiClient.fetch` run for at most `max_retries`
attempts starting at attempt 1. -/
def apiFetch (url : List Char) (keyMap : List (List Char × List Char))
    (transport : Nat → ApiAttempt) (max_retries : Nat) :
    Except ApiErr (List (List Char × Value)) × Nat :=
  apiFetchGo url keyMap transport max_retries max_retries 1 Option.none

/-- `ApiClient.fetch(source, context)` from `api_client.py`: a disabled or
absent API config short-circuits to no fetch; otherwise the URL is resolved
against the context and the retry loop runs. -/
def ApiClient.fetch (max_retries : Nat) (source : SourceConfig)
    (context : Option (List (List Char × List Char)))
    (transport : Nat → ApiAttempt) :
    Except (Sum UrlError ApiErr) (Option (List (List Char × Value))) :=
  match source.api with
  | Option.none => Except.ok Option.none
  | some cfg =>
    if !cfg.enabled then Except.ok Option.none
    else
      match resolveUrl (cfg.base_url.getD []) context with
      | Except.error e => Except.error (Sum.inl e)
      | Except.ok url =>
        match (apiFetch url (cfg.json_key_map.getD []) transport max_retries).1 with
        | Except.error e => Except.error (Sum.inr e)
        | Except.ok vals => Except.ok (some vals)

/-- A scalar pipeline value: neither a dict nor a list, so no path segment
can be resolved against it. -/
def isScalarValue : Value → Bool
  | Value.list _ => false
  | Value.dict _ => false
  | _ => true

/-! ## Claim C1 -/

/-- C1: evaluation at the failing input.  A fetch whose single attempt answers
HTTP 200 with a body does NOT return the body text: the success branch of
`fetch_html` computes the normalized encoding but never returns, so the loop
runs out of attempts and the post-loop `ScrapeError` (carrying the last
status, 200) is raised instead. -/
theorem fetch_html_2xx_raises_instead_of_returning_body :
    fetch_html "https://example.com".data
        (fun _ => HtmlAttempt.resp 200 (some "utf-8".data) Option.none "<html></html>".data) 1
      = (Except.error (ScrapeErr.exhausted "https://example.com".data (some 200)), 1) := by
  rfl

/-! ## Claim C2 -/

/-- C2: evaluation at the spec's retry scenario (one 5xx, then a 2xx, with
maximum attempt count 2).  The API variant succeeds after exactly 2 attempts
as claimed, but the HTML variant — through the same missing `return` as in C1
— consumes the successful second attempt and then raises the exhausted-budget
`ScrapeError` instead of returning the body. -/
theorem retry_one_5xx_then_2xx_evaluation :
    apiFetch "u".data [("id".data, "value.id".data)]
        (fun n => if n = 1 then ApiAttempt.resp 500 Option.none
          else ApiAttempt.resp 200
            (some (Value.dict [("value".data, Value.dict [("id".data, Value.int 10)])]))) 2
      = (Except.ok [("id".data, Value.int 10)], 2) ∧
    fetch_html "u".data
        (fun n => if n = 1 then HtmlAttempt.resp 500 Option.none Option.none []
          else HtmlAttempt.resp 200 Option.none Option.none "<html></html>".data) 2
      = (Except.error (ScrapeErr.exhausted "u".data (some 200)), 2) :=
  ⟨rfl, rfl⟩

/-! ## Claim C3 -/

/-- C3 counterexample: a response with a non-2xx, non-5xx status outside the
4xx range is NOT fatal.  `raise_for_status` only raises for 400–599, so an
API attempt answering 304 with a JSON body succeeds (it does not fail with a
`FetchError`), and an HTML fetch answering 304 keeps looping over further
attempts (3 of them here) instead of failing immediately after 1. -/
theorem status_304_is_not_terminal :
    apiFetch "u".data [] (fun _ => ApiAttempt.resp 304 (some (Value.dict []))) 3
      = (Except.ok [], 1) ∧
    fetch_html "u".data (fun _ => HtmlAttempt.resp 304 Option.none Option.none []) 3
      = (Except.error (ScrapeErr.exhausted "u".data (some 304)), 3) :=
  ⟨rfl, rfl⟩

/-- C3 (amended): a response whose status lies in the 4xx range is fatal
immediately for both fetch variants: no retry is attempted, the fetch
performs exactly 1 attempt and surfaces the error carrying the URL and the
status code. -/
theorem fetch_4xx_fails_immediately (url : List Char)
    (keyMap : List (List Char × List Char))
    (tA : Nat → ApiAttempt) (tH : Nat → HtmlAttempt) (maxR st : Nat)
    (body : Option Value) (enc app : Option (List Char)) (txt : List Char)
    (hmax : 1 ≤ maxR) (h4 : 400 ≤ st) (h5 : st < 500)
    (hA : tA 1 = ApiAttempt.resp st body)
    (hH : tH 1 = HtmlAttempt.resp st enc app txt) :
    apiFetch url keyMap tA maxR = (Except.error (ApiErr.httpError url st), 1) ∧
    fetch_html url tH maxR = (Except.error (ScrapeErr.httpError url st), 1) := by
  obtain ⟨k, rfl⟩ : ∃ k, maxR = k + 1 := ⟨maxR - 1, by omega⟩
  refine ⟨?_, ?_⟩
  · simp only [apiFetch, apiFetchGo, hA]
    rw [if_neg (by omega), if_pos (by omega)]
  · simp only [fetch_html, fetchHtmlGo, hH]
    rw [if_neg (by omega), if_pos (by omega)]

/-- C3 witness: a 404 on the first attempt with maximum attempt count 3 fails
after exactly 1 attempt, for both variants. -/
theorem fetch_4xx_fails_immediately_witness :
    apiFetch "u".data [] (fun _ => ApiAttempt.resp 404 Option.none) 3
      = (Except.error (ApiErr.httpError "u".data 404), 1) ∧
    fetch_html "u".data (fun _ => HtmlAttempt.resp 404 Option.none Option.none []) 3
      = (Except.error (ScrapeErr.httpError "u".data 404), 1) :=
  fetch_4xx_fails_immediately "u".data [] _ _ 3 404 Option.none Option.none Option.none []
    (by decide) (by decide) (by decide) rfl rfl

/-! ## Claim C10 -/

/-- C10: whenever `normalize_record` produces a record (rather than
propagating an uncaught conversion exception, which produces no record at
all), the record's key list is exactly the key list of the mapping's
`unified_fields`, in declaration order, for every source configuration and
every combination of present/absent extracted-value maps.  Stated as an
`Except`-level map equality, so it is hypothesis-free: on the error side both
maps carry the same exception, on the success side the equality is exactly
the key-list equality. -/
theorem normalize_record_keys (source : SourceConfig)
    (api_values html_values : Option (List (List Char × Value))) :
    (normalize_record source api_values html_values).map (fun rec => rec.map Prod.fst)
      = (normalize_record source api_values html_values).map
          (fun _ => source.mapping.unified_fields.map Prod.fst) := by
  unfold normalize_record
  induction source.mapping.unified_fields with
  | nil => rfl
  | cons kv rest ih =>
    simp only [normalize_record_go]
    cases hr : resolveField source.mapping.field_types kv.1 kv.2 api_values html_values with
    | error e => simp [Except.map]
    | ok v =>
      cases hg : normalize_record_go source.mapping.field_types api_values html_values rest with
      | error e => simp [Except.map]
      | ok tail =>
        rw [hg] at ih
        simp only [Except.map] at ih ⊢
        simp only [List.map_cons, List.map]
        have htail : tail.map Prod.fst = rest.map Prod.fst := by
          simpa using ih
        simp [htail]

/-! ## Claim C5 -/

theorem convert_float_eq (v : Value) (hv : v ≠ Value.none) :
    _convert_value v (some "float".data) = convApply (pyFloatConv v) := by
  cases v
  case none => exact absurd rfl hv
  all_goals rfl

theorem convert_int_eq (v : Value) (hv : v ≠ Value.none) :
    _convert_value v (some "int".data) = convApply (pyIntConv v) := by
  cases v
  case none => exact absurd rfl hv
  all_goals rfl

/-- C5 counterexample: a failing conversion does not always yield absence.
`int()` of an infinite float raises `OverflowError`, as does `float()` of an
integer beyond double range, and the `except (TypeError, ValueError)` clause
of `_convert_value` catches neither: the conversion raises instead of
coercing to absence. -/
theorem convert_value_overflow_raises :
    _convert_value (Value.float (PyFloat.inf false)) (some "int".data)
      = Except.error PyExc.overflowError ∧
    _convert_value (Value.int ((10 : Int) ^ 400)) (some "float".data)
      = Except.error PyExc.overflowError ∧
    Except.error PyExc.overflowError ≠ (Except.ok Value.none : Except PyExc Value) :=
  ⟨rfl, rfl, fun h => Except.noConfusion h⟩

/-- C5 (amended): the type coercion of the Normalizer.  An absent value or an
absent declared type passes through unchanged; a conversion producing a value
yields exactly that value; a conversion failing with `TypeError`/`ValueError`
— which, over values with ASCII string content, is exactly the model's
`caught` outcome — yields absence without raising; an unknown declared type
passes the value through; but a conversion failing with `OverflowError` (an
infinite float with declared `int`, an out-of-double-range integer with
declared `float`) raises it uncaught out of the Normalizer. -/
theorem convert_value_coercion :
    (∀ t, _convert_value Value.none t = Except.ok Value.none) ∧
    (∀ v, _convert_value v Option.none = Except.ok v) ∧
    (∀ v w, pyFloatConv v = ConvOutcome.ok w →
      _convert_value v (some "float".data) = Except.ok w) ∧
    (∀ v, valueAscii v = true → pyFloatConv v = ConvOutcome.caught →
      _convert_value v (some "float".data) = Except.ok Value.none) ∧
    (∀ v e, pyFloatConv v = ConvOutcome.uncaught e →
      _convert_value v (some "float".data) = Except.error e) ∧
    (∀ v w, pyIntConv v = ConvOutcome.ok w →
      _convert_value v (some "int".data) = Except.ok w) ∧
    (∀ v, valueAscii v = true → pyIntConv v = ConvOutcome.caught →
      _convert_value v (some "int".data) = Except.ok Value.none) ∧
    (∀ v e, pyIntConv v = ConvOutcome.uncaught e →
      _convert_value v (some "int".data) = Except.error e) ∧
    (∀ v t, t ≠ "float".data → t ≠ "int".data → _convert_value v (some t) = Except.ok v) := by
  refine ⟨fun t => by cases t <;> rfl, fun v => by cases v <;> rfl,
    fun v w h => ?_, fun v ha h => ?_, fun v e h => ?_,
    fun v w h => ?_, fun v ha h => ?_, fun v e h => ?_,
    fun v t h1 h2 => by cases v <;> simp [_convert_value, h1, h2]⟩
  · by_cases hv : v = Value.none
    · subst hv; simp [pyFloatConv] at h
    · rw [convert_float_eq v hv, h]; rfl
  · by_cases hv : v = Value.none
    · subst hv; rfl
    · rw [convert_float_eq v hv, h]; rfl
  · by_cases hv : v = Value.none
    · subst hv; simp [pyFloatConv] at h
    · rw [convert_float_eq v hv, h]; rfl
  · by_cases hv : v = Value.none
    · subst hv; simp [pyIntConv] at h
    · rw [convert_int_eq v hv, h]; rfl
  · by_cases hv : v = Value.none
    · subst hv; rfl
    · rw [convert_int_eq v hv, h]; rfl
  · by_cases hv : v = Value.none
    · subst hv; simp [pyIntConv] at h
    · rw [convert_int_eq v hv, h]; rfl

/-- C5 witness: `"9.99"` with declared type `float` yields the decimal
999 x 10^-2; `"1_0"` (a PEP-515 literal) yields 10; `"abc"` with declared
type `int` yields absence; a value with no declared coercion passes through;
an infinite float with declared `int` raises `OverflowError`; an absent
value passes through. -/
theorem convert_value_coercion_witness :
    _convert_value (Value.str "9.99".data) (some "float".data)
      = Except.ok (Value.float (PyFloat.finite 999 (-2))) ∧
    _convert_value (Value.str "1_0".data) (some "float".data)
      = Except.ok (Value.float (PyFloat.finite 10 0)) ∧
    _convert_value (Value.str "abc".data) (some "int".data) = Except.ok Value.none ∧
    _convert_value (Value.str "abc".data) Option.none = Except.ok (Value.str "abc".data) ∧
    _convert_value (Value.float (PyFloat.inf false)) (some "int".data)
      = Except.error PyExc.overflowError ∧
    _convert_value Value.none (some "int".data) = Except.ok Value.none :=
  ⟨convert_value_coercion.2.2.1 _ _ rfl,
   convert_value_coercion.2.2.1 _ _ rfl,
   convert_value_coercion.2.2.2.2.2.2.1 _ (by decide) rfl,
   convert_value_coercion.2.1 _,
   convert_value_coercion.2.2.2.2.2.2.2.1 _ _ rfl,
   convert_value_coercion.1 _⟩

/-! ## Claim C6 -/

/-- C6 counterexample: extraction can raise.  `'²'.isdigit()` is true in
Python but `int('²')` raises `ValueError`, so resolving the single segment
`²` against a sequence node raises out of `extract_json_value` instead of
returning absence. -/
theorem extract_superscript_digit_raises :
    extract_json_value (Value.list [Value.int 7]) ['²'] = Except.error PyExc.valueError ∧
    Except.error PyExc.valueError ≠ (Except.ok Value.none : Except PyExc Value) :=
  ⟨rfl, fun h => Except.noConfusion h⟩

/-- C6 (amended): the failed resolution steps of `extract_json_value` yield
absence, never an error — a key missing from a dict node, a non-digit
segment at a list node, a decimal-digit segment whose index is out of
bounds, and any segment resolved against a scalar node — with one exception:
a digit-like segment with no decimal value (e.g. a superscript digit) at a
list node raises `ValueError` out of the function. -/
theorem extract_failure_modes :
    (∀ d path, extract_json_value d path = extractGo d (splitDot path)) ∧
    (∀ kvs k ps, (∀ kv ∈ kvs, kv.1 ≠ k) →
      extractGo (Value.dict kvs) (k :: ps) = Except.ok Value.none) ∧
    (∀ xs p ps, pyIsDigit p = false →
      extractGo (Value.list xs) (p :: ps) = Except.ok Value.none) ∧
    (∀ xs p ps, p.all isAsciiDigit = true → p ≠ [] → xs.length ≤ digitsToNat p →
      extractGo (Value.list xs) (p :: ps) = Except.ok Value.none) ∧
    (∀ cur p ps, isScalarValue cur = true →
      extractGo cur (p :: ps) = Except.ok Value.none) ∧
    (∀ xs p ps, pyIsDigit p = true → p.all isAsciiDigit = false →
      extractGo (Value.list xs) (p :: ps) = Except.error PyExc.valueError) := by
  refine ⟨fun d path => rfl, fun kvs k ps h => ?_, fun xs p ps h => ?_,
    fun xs p ps h1 h2 h3 => ?_, fun cur p ps h => ?_, fun xs p ps h1 h2 => ?_⟩
  · have hfind : kvs.find? (fun kv => kv.1 == k) = Option.none := by
      rw [List.find?_eq_none]
      intro kv hkv
      simpa using h kv hkv
    simp [extractGo, extractStep, pyDictGet, hfind]
  · simp [extractGo, extractStep, h]
  · have hdig : pyIsDigit p = true := by
      simp only [pyIsDigit, Bool.and_eq_true, Bool.not_eq_true', List.isEmpty_eq_false,
        List.all_eq_true]
      refine ⟨h2, fun c hc => ?_⟩
      simp only [Bool.or_eq_true]
      exact Or.inl ((List.all_eq_true.mp h1) c hc)
    have hconv : pyIntOfDigits p = some (digitsToNat p) := by simp [pyIntOfDigits, h1]
    simp [extractGo, extractStep, hdig, hconv, dif_neg (by omega : ¬digitsToNat p < xs.length)]
  · cases cur <;> simp_all [isScalarValue, extractGo, extractStep]
  · have hconv : pyIntOfDigits p = Option.none := by simp [pyIntOfDigits, h2]
    simp [extractGo, extractStep, h1, hconv]

/-- C6 witness: concrete failed steps of each absence kind, and the raising
superscript-digit case. -/
theorem extract_failure_modes_witness :
    extractGo (Value.dict [("a".data, Value.int 1)]) ["b".data] = Except.ok Value.none ∧
    extractGo (Value.list [Value.int 1]) ["x".data] = Except.ok Value.none ∧
    extractGo (Value.list [Value.int 1]) ["1".data] = Except.ok Value.none ∧
    extractGo (Value.int 7) ["a".data] = Except.ok Value.none ∧
    extractGo (Value.list [Value.int 1]) [['²']] = Except.error PyExc.valueError :=
  ⟨extract_failure_modes.2.1 _ _ [] (by decide),
   extract_failure_modes.2.2.1 _ _ [] (by decide),
   extract_failure_modes.2.2.2.1 _ _ [] (by decide) (by decide) (by decide),
   extract_failure_modes.2.2.2.2.1 _ _ [] (by decide),
   extract_failure_modes.2.2.2.2.2 _ _ [] (by decide) (by decide)⟩

/-! ## Claim C7 -/

/-- C7 counterexample: with an empty path, `extract_json_value` does NOT
return the whole tree.  `"".split(".")` is `[""]`, so the empty path is one
empty-string segment, which is looked up as a key: on a dict without a
`""`-key the result is absence, not the tree itself. -/
theorem extract_empty_path_not_whole_tree :
    extract_json_value (Value.dict [("a".data, Value.int 1)]) [] = Except.ok Value.none ∧
    Value.none ≠ Value.dict [("a".data, Value.int 1)] :=
  ⟨rfl, fun h => Value.noConfusion h⟩

theorem splitDot_ne_nil (s : List Char) : splitDot s ≠ [] := by
  cases s with
  | nil => simp [splitDot]
  | cons c rest =>
    cases hsp : splitDot rest with
    | nil => simp [splitDot, hsp]
    | cons a as => simp only [splitDot, hsp]; split <;> simp

theorem splitDot_no_dot (s : List Char) (h : '.' ∉ s) : splitDot s = [s] := by
  induction s with
  | nil => rfl
  | cons c rest ih =>
    have hc : c ≠ '.' := fun hc => h (hc ▸ List.mem_cons_self c rest)
    have hr : '.' ∉ rest := fun hm => h (List.mem_cons_of_mem c hm)
    simp [splitDot, ih hr, hc]

theorem extractGo_single (t : Value) (seg : List Char) :
    extractGo t [seg] = extractStep t seg := by
  cases h : extractStep t seg with
  | error e => simp [extractGo, h]
  | ok v => cases v <;> simp [extractGo, h]

/-- C7 (amended): a dot-free path — in particular the empty path — is a single
segment and is resolved by one lookup step directly against the root of the
tree; the empty path thus looks up the empty-string key rather than returning
the whole tree. -/
theorem extract_single_segment (t : Value) (seg : List Char) (h : '.' ∉ seg) :
    extract_json_value t seg = extractStep t seg := by
  unfold extract_json_value
  rw [splitDot_no_dot seg h, extractGo_single]

/-- C7 witness: a single-segment path resolved against a concrete tree, and
the empty path resolved as the empty-string segment. -/
theorem extract_single_segment_witness :
    extract_json_value (Value.dict [("a".data, Value.int 1)]) "a".data
      = extractStep (Value.dict [("a".data, Value.int 1)]) "a".data ∧
    extract_json_value (Value.dict [("a".data, Value.int 1)]) []
      = extractStep (Value.dict [("a".data, Value.int 1)]) [] :=
  ⟨extract_single_segment _ _ (by decide), extract_single_segment _ _ (by decide)⟩

/-! ## Claim C4 -/

theorem convert_none (t : Option (List Char)) :
    _convert_value Value.none t = Except.ok Value.none := by
  cases t <;> rfl

theorem convert_value_no_type (v : Value) : _convert_value v Option.none = Except.ok v := by
  cases v <;> rfl

theorem splitDot_append_no_dot (a b : List Char) (h : '.' ∉ a) :
    splitDot (a ++ '.' :: b) = a :: splitDot b := by
  induction a with
  | nil =>
    simp only [List.nil_append, splitDot]
    cases hsp : splitDot b with
    | nil => exact absurd hsp (splitDot_ne_nil b)
    | cons s ss => simp
  | cons c a2 ih =>
    have hc : c ≠ '.' := fun hc => h (hc ▸ List.mem_cons_self c a2)
    have ha : '.' ∉ a2 := fun hm => h (List.mem_cons_of_mem c hm)
    simp only [List.cons_append, splitDot, List.append_eq]
    rw [ih ha]
    simp [hc]

theorem joinDot_splitDot (s : List Char) : joinDot (splitDot s) = s := by
  induction s with
  | nil => rfl
  | cons c rest ih =>
    cases hsp : splitDot rest with
    | nil => exact absurd hsp (splitDot_ne_nil rest)
    | cons a as =>
      rw [hsp] at ih
      by_cases hc : c = '.'
      · subst hc
        simp only [splitDot, hsp, if_pos rfl]
        simp [joinDot, ih]
      · simp only [splitDot, hsp, if_neg hc]
        cases as with
        | nil =>
          simp only [joinDot] at ih ⊢
          rw [ih]
        | cons a2 as2 =>
          simp only [joinDot, List.cons_append] at ih ⊢
          rw [ih]

/-- C4: parsing of mapping expressions in `normalize_record`.  An expression
with no dot resolves to absence; an expression is split at its first dot into
an origin and a key that keeps all later dots; an origin other than
`api`/`html` resolves to absence; an absent origin map resolves its fields to
absence while fields of the other origin are unaffected; otherwise (with no
declared coercion for the field) the value is the key's entry in the origin's
extracted-value map; and `normalize_record` applies exactly this per-field
resolution to every unified field, in order. -/
theorem normalize_mapping_expression_parse :
    (∀ ft ukey expr api_v html_v, '.' ∉ expr →
      resolveField ft ukey expr api_v html_v = Except.ok Value.none) ∧
    (∀ ft ukey origin key api_v html_v, '.' ∉ origin →
      origin ≠ "api".data → origin ≠ "html".data →
      resolveField ft ukey (origin ++ '.' :: key) api_v html_v = Except.ok Value.none) ∧
    (∀ ft ukey key html_v,
      resolveField ft ukey ("api".data ++ '.' :: key) Option.none html_v
        = Except.ok Value.none) ∧
    (∀ ft ukey key api1 api2 html_v,
      resolveField ft ukey ("html".data ++ '.' :: key) api1 html_v
        = resolveField ft ukey ("html".data ++ '.' :: key) api2 html_v) ∧
    (∀ ft ukey key m html_v, lookupStr (ft.getD []) ukey = Option.none →
      resolveField ft ukey ("api".data ++ '.' :: key) (some m) html_v
        = Except.ok (pyDictGet m key)) ∧
    (∀ ft ukey key m api_v, lookupStr (ft.getD []) ukey = Option.none →
      resolveField ft ukey ("html".data ++ '.' :: key) api_v (some m)
        = Except.ok (pyDictGet m key)) ∧
    (∀ source api_v html_v, normalize_record source api_v html_v
      = normalize_record_go source.mapping.field_types api_v html_v
          source.mapping.unified_fields) := by
  have hlen : ∀ (o : List Char) (k : List Char), '.' ∉ o →
      ¬((splitDot (o ++ '.' :: k)).length < 2) := by
    intro o k ho
    rw [splitDot_append_no_dot o k ho]
    have := List.length_pos.mpr (splitDot_ne_nil k)
    simp only [List.length_cons]
    omega
  have hlen3 : ∀ (o : List Char) (k : List Char), ¬((o :: splitDot k).length < 2) := by
    intro o k
    have := List.length_pos.mpr (splitDot_ne_nil k)
    simp only [List.length_cons]
    omega
  refine ⟨fun ft ukey expr api_v html_v h => ?_,
    fun ft ukey origin key api_v html_v h h2 h3 => ?_,
    fun ft ukey key html_v => ?_, fun ft ukey key api1 api2 html_v => ?_,
    fun ft ukey key m html_v h => ?_, fun ft ukey key m api_v h => ?_,
    fun source api_v html_v => rfl⟩
  · simp [resolveField, splitDot_no_dot expr h]
  · rw [resolveField, if_neg (hlen origin key h)]
    simp only [splitDot_append_no_dot origin key h, List.headD_cons, List.tail_cons]
    rw [if_neg h2, if_neg h3, convert_none]
  · simp only [resolveField, splitDot_append_no_dot "api".data key (by decide)]
    rw [if_neg (hlen3 _ _)]
    simp [convert_none]
  · simp only [resolveField, splitDot_append_no_dot "html".data key (by decide)]
    rw [if_neg (hlen3 _ _), if_neg (hlen3 _ _)]
    simp
  · simp only [resolveField, splitDot_append_no_dot "api".data key (by decide)]
    rw [if_neg (hlen3 _ _)]
    simp [joinDot_splitDot, h, convert_value_no_type]
  · simp only [resolveField, splitDot_append_no_dot "html".data key (by decide)]
    rw [if_neg (hlen3 _ _)]
    simp [joinDot_splitDot, h, convert_value_no_type]

/-- C4 witness: a dot-free expression resolves to absence; an unknown origin
resolves to absence; a key containing a dot (`a.b`) is preserved intact and
looked up whole in the API values; an HTML-mapped field resolves from the
HTML values. -/
theorem normalize_mapping_expression_parse_witness :
    resolveField Option.none "id".data "nodot".data (some []) (some [])
      = Except.ok Value.none ∧
    resolveField Option.none "id".data ("xml".data ++ '.' :: "k".data) (some []) (some [])
      = Except.ok Value.none ∧
    resolveField Option.none "price".data ("api".data ++ '.' :: "a.b".data)
        (some [("a.b".data, Value.int 1)]) Option.none
      = Except.ok (pyDictGet [("a.b".data, Value.int 1)] "a.b".data) ∧
    resolveField Option.none "title".data ("html".data ++ '.' :: "t".data) Option.none
        (some [("t".data, Value.str "x".data)])
      = Except.ok (pyDictGet [("t".data, Value.str "x".data)] "t".data) :=
  ⟨normalize_mapping_expression_parse.1 _ _ _ _ _ (by decide),
   normalize_mapping_expression_parse.2.1 _ _ _ _ _ _ (by decide) (by decide) (by decide),
   normalize_mapping_expression_parse.2.2.2.2.1 _ _ _ _ _ rfl,
   normalize_mapping_expression_parse.2.2.2.2.2.1 _ _ _ _ _ rfl⟩

/-! ## Claim C8 -/

theorem takeWhile_append_stop (p : Char → Bool) (a b : List Char)
    (ha : ∀ c ∈ a, p c = true) (hb : b = [] ∨ p (b.headD '.') = false) :
    (a ++ b).takeWhile p = a := by
  induction a with
  | nil =>
    rcases hb with h | h
    · subst h; rfl
    · cases b with
      | nil => rfl
      | cons c bs =>
        simp only [List.headD_cons] at h
        simp only [List.nil_append]
        rw [List.takeWhile_cons_of_neg (by simp [h])]
  | cons c as ih =>
    rw [List.cons_append,
      List.takeWhile_cons_of_pos (ha c (List.mem_cons_self c as)),
      ih (fun x hx => ha x (List.mem_cons_of_mem c hx))]

theorem fieldScan (ctx : List (List Char × List Char)) (t suf : List Char) :
    ∀ acc, (∀ c ∈ t, c ≠ '{' ∧ c ≠ '}') →
    pyFormatGo ctx (FmtMode.field acc) (t ++ '}' :: suf)
      = pyFormatGo ctx (FmtMode.field (acc ++ t)) ('}' :: suf) := by
  induction t with
  | nil => intro acc h; simp
  | cons c t2 ih =>
    intro acc h
    have hc := h c (List.mem_cons_self c t2)
    have hn : ∀ x ∈ t2, x ≠ '{' ∧ x ≠ '}' := fun x hx => h x (List.mem_cons_of_mem c hx)
    have harm : pyFormatGo ctx (FmtMode.field acc) (c :: (t2 ++ '}' :: suf))
        = pyFormatGo ctx (FmtMode.field (acc ++ [c])) (t2 ++ '}' :: suf) := by
      simp [pyFormatGo, hc.1, hc.2]
    rw [List.cons_append, harm, ih (acc ++ [c]) hn]
    simp

theorem fieldFinishMissing (ctx : List (List Char × List Char))
    (field name suf : List Char) (hname : fieldArgName field = name)
    (h2 : name ≠ []) (h3 : name.all isAsciiDigit = false)
    (h4 : lookupStr ctx name = Option.none) :
    pyFormatGo ctx (FmtMode.field field) ('}' :: suf)
      = Except.error (FormatError.missingKey name) := by
  have h2' : name.isEmpty = false := by
    cases name with
    | nil => exact absurd rfl h2
    | cons c cs => rfl
  simp [pyFormatGo, hname, h2', h3, h4]

theorem litScan_error (ctx : List (List Char × List Char)) (pre rest0 : List Char)
    (e : FormatError) (hpre : ∀ c ∈ pre, c ≠ '{' ∧ c ≠ '}')
    (h : pyFormatGo ctx FmtMode.lit rest0 = Except.error e) :
    pyFormatGo ctx FmtMode.lit (pre ++ rest0) = Except.error e := by
  induction pre with
  | nil => simpa using h
  | cons c pre2 ih =>
    have hc := hpre c (List.mem_cons_self c pre2)
    have hp : ∀ x ∈ pre2, x ≠ '{' ∧ x ≠ '}' := fun x hx => hpre x (List.mem_cons_of_mem c hx)
    rw [List.cons_append]
    have harm : pyFormatGo ctx FmtMode.lit (c :: (pre2 ++ rest0))
        = (pyFormatGo ctx FmtMode.lit (pre2 ++ rest0)).map fun t => c :: t := by
      simp [pyFormatGo, hc.1, hc.2]
    rw [harm, ih hp]
    rfl

theorem openField (ctx : List (List Char × List Char)) (rest0 : List Char)
    (h : rest0.headD ' ' ≠ '{') :
    pyFormatGo ctx FmtMode.lit ('{' :: rest0) = pyFormatGo ctx (FmtMode.field []) rest0 := by
  cases rest0 with
  | nil => rfl
  | cons c rest2 =>
    simp only [List.headD_cons] at h
    simp [pyFormatGo, h]

/-- C8: URL-template substitution is asymmetric.  With an absent or empty
context the template is returned unmodified (placeholders left literal, no
error); with a non-empty context lacking the keyword of a named replacement
field — even one carrying attribute/index access, a conversion or a format
spec after the name — the substitution fails with a missing-context-key error
naming exactly the leading keyword name (Python's `KeyError` argument). -/
theorem url_template_substitution :
    (∀ t, resolveUrl t Option.none = Except.ok t) ∧
    (∀ t, resolveUrl t (some []) = Except.ok t) ∧
    (∀ ctx pre name extras suf, ctx ≠ [] →
      (∀ c ∈ pre, c ≠ '{' ∧ c ≠ '}') →
      (∀ c ∈ name, c ≠ '{' ∧ c ≠ '}' ∧ isNameChar c = true) →
      name ≠ [] → name.all isAsciiDigit = false →
      (∀ c ∈ extras, c ≠ '{' ∧ c ≠ '}') →
      (extras = [] ∨ isNameChar (extras.headD '.') = false) →
      lookupStr ctx name = Option.none →
      resolveUrl (pre ++ '{' :: (name ++ extras) ++ '}' :: suf) (some ctx)
        = Except.error (UrlError.missingContextKey name
            (pre ++ '{' :: (name ++ extras) ++ '}' :: suf))) := by
  refine ⟨fun t => rfl, fun t => rfl,
    fun ctx pre name extras suf hctx hpre hname hne hnd hexb hexh hlook => ?_⟩
  have hargs : fieldArgName (name ++ extras) = name := by
    unfold fieldArgName
    exact takeWhile_append_stop isNameChar name extras (fun c hc => (hname c hc).2.2) hexh
  have hbrace : ∀ c ∈ name ++ extras, c ≠ '{' ∧ c ≠ '}' := by
    intro c hc
    rcases List.mem_append.mp hc with h | h
    · exact ⟨(hname c h).1, (hname c h).2.1⟩
    · exact hexb c h
  have hfield : pyFormatGo ctx (FmtMode.field []) ((name ++ extras) ++ '}' :: suf)
      = Except.error (FormatError.missingKey name) := by
    rw [fieldScan ctx (name ++ extras) suf [] hbrace, List.nil_append]
    exact fieldFinishMissing ctx (name ++ extras) name suf hargs hne hnd hlook
  have hhead : ((name ++ extras) ++ '}' :: suf).headD ' ' ≠ '{' := by
    cases name with
    | nil => exact absurd rfl hne
    | cons c n2 => simpa using (hname c (List.mem_cons_self c n2)).1
  have herr : pyFormatGo ctx FmtMode.lit ('{' :: ((name ++ extras) ++ '}' :: suf))
      = Except.error (FormatError.missingKey name) := by
    rw [openField ctx ((name ++ extras) ++ '}' :: suf) hhead, hfield]
  have hlit := litScan_error ctx pre ('{' :: ((name ++ extras) ++ '}' :: suf)) _ hpre herr
  have hgoal : (pre ++ '{' :: (name ++ extras) ++ '}' :: suf)
      = pre ++ ('{' :: ((name ++ extras) ++ '}' :: suf)) := by
    simp
  rw [hgoal]
  simp only [resolveUrl]
  rw [if_neg (by simpa using hctx)]
  simp only [pyFormat]
  simp only [hlit]

/-- C8 witness: a concrete template with a placeholder passes through
untouched with an absent and with an empty context; with a non-empty context
lacking `slug` the substitution raises the missing-context-key error naming
`slug`; and a dotted field `a.b` with `a` missing raises the error naming
exactly `a` (Python's `KeyError('a')`). -/
theorem url_template_substitution_witness :
    resolveUrl "https://x/{slug}".data Option.none = Except.ok "https://x/{slug}".data ∧
    resolveUrl "https://x/{slug}".data (some []) = Except.ok "https://x/{slug}".data ∧
    resolveUrl ("https://x/".data ++ '{' :: ("slug".data ++ []) ++ '}' :: [])
        (some [("other".data, "1".data)])
      = Except.error (UrlError.missingContextKey "slug".data
          ("https://x/".data ++ '{' :: ("slug".data ++ []) ++ '}' :: [])) ∧
    resolveUrl ("u/".data ++ '{' :: ("a".data ++ ".b".data) ++ '}' :: [])
        (some [("c".data, "1".data)])
      = Except.error (UrlError.missingContextKey "a".data
          ("u/".data ++ '{' :: ("a".data ++ ".b".data) ++ '}' :: [])) :=
  ⟨url_template_substitution.1 _, url_template_substitution.2.1 _,
   url_template_substitution.2.2 _ _ _ _ _ (by decide) (by decide) (by decide) (by decide)
     (by decide) (by decide) (by decide) rfl,
   url_template_substitution.2.2 _ _ _ _ _ (by decide) (by decide) (by decide) (by decide)
     (by decide) (by decide) (by decide) rfl⟩

/-! ## Claim C9 -/

theorem findSplit_cons_eq (pat : List Char) (c : Char) (l : List Char) :
    findSplit pat (c :: l) = if pat.isPrefixOf (c :: l) then some ([], (c :: l).drop pat.length)
      else match findSplit pat l with
        | some p => some (c :: p.1, p.2)
        | Option.none => Option.none := rfl

theorem findSplit_of_isPrefixOf (pat l : List Char) (hl : l ≠ [])
    (hp : pat.isPrefixOf l = true) : findSplit pat l = some ([], l.drop pat.length) := by
  cases l with
  | nil => exact absurd rfl hl
  | cons c r => rw [findSplit_cons_eq, if_pos hp]

theorem findSplit_cons_of_not (pat : List Char) (c : Char) (l : List Char)
    (hp : pat.isPrefixOf (c :: l) = false) :
    findSplit pat (c :: l) = match findSplit pat l with
      | some p => some (c :: p.1, p.2)
      | Option.none => Option.none := by
  rw [findSplit_cons_eq, if_neg (by simp [hp])]

/-- The first occurrence of `"::attr("` in `base ++ "::attr(" ++ rest` is the
explicit one, provided `base` itself contains no occurrence: the marker
cannot overlap the seam because no proper suffix of it is one of its own
prefixes. -/
theorem findSplit_seam (base rest : List Char) (h : containsSub base attrMark = false) :
    findSplit attrMark (base ++ (attrMark ++ rest)) = some (base, rest) := by
  induction base with
  | nil =>
    rw [List.nil_append]
    rw [findSplit_of_isPrefixOf attrMark (attrMark ++ rest) (by simp [attrMark])
      (List.isPrefixOf_iff_prefix.mpr (List.prefix_append _ _))]
    rw [List.drop_left]
  | cons c b2 ih =>
    have hsub : findSplit attrMark (c :: b2) = Option.none := by
      revert h
      unfold containsSub
      cases hv : findSplit attrMark (c :: b2) <;> simp
    have hhead : attrMark.isPrefixOf (c :: b2) = false := by
      cases hx : attrMark.isPrefixOf (c :: b2) with
      | false => rfl
      | true => rw [findSplit_of_isPrefixOf attrMark (c :: b2) (by simp) hx] at hsub; simp at hsub
    have htail : findSplit attrMark b2 = Option.none := by
      rw [findSplit_cons_of_not attrMark c b2 hhead] at hsub
      cases hv : findSplit attrMark b2 with
      | none => rfl
      | some p => rw [hv] at hsub; simp at hsub
    have htailc : containsSub b2 attrMark = false := by simp [containsSub, htail]
    have hkey : attrMark.isPrefixOf (c :: (b2 ++ (attrMark ++ rest))) = false := by
      cases hx : attrMark.isPrefixOf (c :: (b2 ++ (attrMark ++ rest))) with
      | false => rfl
      | true =>
        exfalso
        have hpre : attrMark <+: ((c :: b2) ++ (attrMark ++ rest)) :=
          List.isPrefixOf_iff_prefix.mp hx
        have htake : attrMark = ((c :: b2) ++ (attrMark ++ rest)).take attrMark.length :=
          List.prefix_iff_eq_take.mp hpre
        by_cases hlen : attrMark.length ≤ (c :: b2).length
        · rw [List.take_append_of_le_length hlen] at htake
          have hpre2 : attrMark <+: (c :: b2) := by
            rw [htake]; exact List.take_prefix _ _
          rw [List.isPrefixOf_iff_prefix.mpr hpre2] at hhead
          exact Bool.noConfusion hhead
        · push_neg at hlen
          rw [List.take_append_eq_append_take, List.take_of_length_le (le_of_lt hlen),
            List.take_append_of_le_length (by simp [attrMark]; omega)] at htake
          have h2 := congrArg (List.take (c :: b2).length) htake
          rw [List.take_left] at h2
          rw [← h2] at htake
          obtain ⟨k, hk⟩ : ∃ k, (c :: b2).length = k := ⟨_, rfl⟩
          have hk1 : 1 ≤ k := by rw [← hk]; simp
          have hk6 : k ≤ 6 := by
            have h7 : attrMark.length = 7 := by decide
            omega
          rw [hk] at htake
          interval_cases k
          all_goals exact absurd htake (by decide)
    rw [List.cons_append, findSplit_cons_of_not attrMark c _ hkey, ih htailc]

/-- C9: `_split_selector` splits a selector of the attribute-directive grammar
`base ++ "::attr(" ++ name ++ ")"` (with the directive occupying the tail,
i.e. `base` contains no `"::attr("` of its own) into exactly the base
selector and exactly the attribute name, whatever parentheses `base` or
`name` contain; and returns any selector not containing the marker, or not
ending in a closing parenthesis, whole with no attribute name. -/
theorem selector_split (base name s : List Char)
    (hb : containsSub base attrMark = false)
    (hs : containsSub s attrMark = false ∨ s.getLast? ≠ some ')') :
    _split_selector (base ++ attrMark ++ name ++ [')']) = (base, some name) ∧
    _split_selector s = (s, Option.none) := by
  constructor
  · have hassoc : base ++ attrMark ++ name ++ [')'] = base ++ (attrMark ++ (name ++ [')'])) := by
      simp [List.append_assoc]
    have hlast : (base ++ (attrMark ++ (name ++ [')']))).getLast? = some ')' := by
      have hback : base ++ (attrMark ++ (name ++ [')'])) = (base ++ attrMark ++ name) ++ [')'] := by
        simp [List.append_assoc]
      rw [hback, List.getLast?_concat]
    unfold _split_selector
    rw [hassoc, findSplit_seam base (name ++ [')']) hb]
    simp [hlast, List.dropLast_concat]
  · unfold _split_selector
    cases hfs : findSplit attrMark s with
    | none => rfl
    | some p =>
      rcases hs with h | h
      · rw [containsSub, hfs] at h
        simp at h
      · simp [h]

/-- C9 witness: a base selector containing parentheses (`div:nth-child(2)`)
splits correctly from its attribute directive, and a plain selector is
returned whole. -/
theorem selector_split_witness :
    _split_selector ("div:nth-child(2)".data ++ attrMark ++ "src".data ++ [')'])
      = ("div:nth-child(2)".data, some "src".data) ∧
    _split_selector "h1".data = ("h1".data, Option.none) :=
  selector_split "div:nth-child(2)".data "src".data "h1".data (by decide) (Or.inl (by decide))
